import Mathlib

/-!
Shallow embedding of the `buildAndRelease.js` build script of the
`download-counts` repository, together with proofs about its dispatch logic,
queue/partition invariants, batch splitting, throttling gate, shard merging and
exit behaviour.
-/

namespace DownloadCounts

/-- Maximum number of packages in a single bulk query
(`BULK_QUERY_BATCH_SIZE` in the source). -/
def BULK_QUERY_BATCH_SIZE : Nat := 128

/-- Minimum number of milliseconds between request starts on one worker
(`MIN_REQUEST_INTERVAL_MS` in the source). -/
def MIN_REQUEST_INTERVAL_MS : Nat := 500

/-- Ceiling on unexpected request errors before the invocation aborts
(`MAX_REQUEST_ERRORS` in the source). -/
def MAX_REQUEST_ERRORS : Nat := 80

/-- Fallback cooldown in ms used when a 429 response carries no usable
Retry-After header (`60 * 60 * 1000` in the source). -/
def RETRY_FALLBACK_MS : Nat := 3600000

/-- The persisted build state (the JSON object stored in `state.json`).
`published` is absent in the initial JSON, which reads as falsy; we model it
as a `Bool` that starts out `false`. -/
structure BuildState where
  countsFilesSoFar : Nat
  singlePackages : List String
  unscopedPackageBatches : List (List String)
  status403Packages : List String
  published : Bool
deriving DecidableEq

/-- What a fresh invocation of the script can observe before choosing what to
do: whether `state.json` exists (and if so its parsed contents), and whether
the final artifact file `pkg.main` exists. -/
structure Env where
  stateFileExists : Bool
  state : BuildState
  artifactExists : Bool
deriving DecidableEq

/-- The five scenarios of the script. Constructor order follows the dispatch
order of the source: SCENARIO 1 (initialise), SCENARIO 5 (already published),
SCENARIO 4 (publish), SCENARIO 3 (merge shards), SCENARIO 2 (fetch counts). -/
inductive Phase
  | initialise
  | alreadyPublished
  | publishArtifact
  | mergeShards
  | fetchCounts
deriving DecidableEq

/-- Top-level scenario dispatch of `buildAndRelease.js`: each guard is tested
in source order and the first matching scenario runs; every scenario ends in
`process.exit()` (or end of script), so exactly one runs per invocation. -/
def dispatch (e : Env) : Phase :=
  if e.stateFileExists = false then Phase.initialise
  else if e.state.published = true then Phase.alreadyPublished
  else if e.artifactExists = true then Phase.publishArtifact
  else if e.state.singlePackages.length = 0 ∧ e.state.unscopedPackageBatches.length = 0 then
    Phase.mergeShards
  else Phase.fetchCounts

/-- JavaScript's `name.split('/')`, acting on the character list of the name:
splitting on every `/`, keeping empty segments, and returning one (possibly
empty) segment when no `/` occurs. -/
def splitSlash : List Char → List (List Char)
  | [] => [[]]
  | c :: rest =>
    match splitSlash rest with
    | [] => [[c]]
    | seg :: segs => if c = '/' then [] :: seg :: segs else (c :: seg) :: segs

/-- The init-time name filter: drop names with a `.` or `..` URL segment
(`!name.split('/').includes('.') && !name.split('/').includes('..')`). -/
def goodName (n : String) : Bool :=
  !((splitSlash n.data).contains ['.'] || (splitSlash n.data).contains ['.', '.'])

/-- A scoped package name contains a `/` (`name.includes('/')`). -/
def isScoped (n : String) : Bool := n.data.contains '/'

/-- The batching loop of SCENARIO 1: push names onto the current batch, flush
the batch when it reaches `k` names, and flush a final short batch. -/
def buildBatchesGo (k : Nat) : List String → List (List String) → List String → List (List String)
  | [], acc, batch => if batch.length ≠ 0 then acc ++ [batch] else acc
  | p :: rest, acc, batch =>
    if (batch ++ [p]).length = k then buildBatchesGo k rest (acc ++ [batch ++ [p]]) []
    else buildBatchesGo k rest acc (batch ++ [p])

/-- Group unscoped names into bulk batches of size `k` (last batch short). -/
def buildBatches (k : Nat) (names : List String) : List (List String) :=
  buildBatchesGo k names [] []

/-- SCENARIO 1: the initial `BuildState` built from the full name universe. -/
def initialState (packageNames : List String) : BuildState :=
  let good := packageNames.filter goodName
  { countsFilesSoFar := 0
    singlePackages := good.filter isScoped
    unscopedPackageBatches := buildBatches BULK_QUERY_BATCH_SIZE (good.filter fun n => !isScoped n)
    status403Packages := []
    published := false }

/-- The JSON body of a successful downloads response, abstracted by the two
accessors the script uses: `Object.entries(respJson)` on the bulk path (pairs
of a package name and a possibly-null download count) and `respJson.downloads`
on the single-package path. -/
structure JsonBody where
  entries : List (String × Option Nat)
  downloads : Option Nat
deriving DecidableEq

/-- What one API call through the throttled fetcher can yield to the worker:
a thrown network error, or a response with a status code and JSON body.
(429s never reach the worker: the fetcher retries them internally.) -/
inductive ApiResp
  | netErr
  | resp (status : Nat) (body : JsonBody)
deriving DecidableEq

/-- The mutable in-memory state of the fetch phase: the two queues and the
blocklist (fields of the `state` object), the `counts` accumulator, and the
`nRequestErrors` counter. -/
structure FetchState where
  unscopedPackageBatches : List (List String)
  singlePackages : List String
  status403Packages : List String
  counts : List (String × Nat)
  nRequestErrors : Nat
deriving DecidableEq

/-- `fetchCountsForUnscopedBatch`, applied to an already-popped batch.
Network errors and unexpected statuses push the batch back and record an
unexpected error; 400/403 split the batch in half (or demote its members to
`singlePackages` when it has at most 3 members); 200 records every entry whose
downloads field is non-null. -/
def fetchCountsForUnscopedBatch (s : FetchState) (batch : List String) : ApiResp → FetchState
  | ApiResp.netErr =>
    { s with unscopedPackageBatches := s.unscopedPackageBatches ++ [batch]
             nRequestErrors := s.nRequestErrors + 1 }
  | ApiResp.resp status body =>
    if status = 400 ∨ status = 403 then
      if batch.length ≤ 3 then
        { s with singlePackages := s.singlePackages ++ batch }
      else
        { s with unscopedPackageBatches := s.unscopedPackageBatches ++
            [batch.take (batch.length / 2), batch.drop (batch.length / 2)] }
    else if status ≠ 200 then
      { s with unscopedPackageBatches := s.unscopedPackageBatches ++ [batch]
               nRequestErrors := s.nRequestErrors + 1 }
    else
      { s with counts := s.counts ++
          body.entries.filterMap fun pe => pe.2.map fun d => (pe.1, d) }

/-- `fetchCountForSinglePackage`, applied to an already-popped package name.
403 moves the name to `status403Packages`; 404 drops it; other non-200
statuses and network errors push it back and record an unexpected error;
200 records the downloads value when it is non-null. -/
def fetchCountForSinglePackage (s : FetchState) (packageName : String) : ApiResp → FetchState
  | ApiResp.netErr =>
    { s with singlePackages := s.singlePackages ++ [packageName]
             nRequestErrors := s.nRequestErrors + 1 }
  | ApiResp.resp status body =>
    if status = 403 then
      { s with status403Packages := s.status403Packages ++ [packageName] }
    else if status = 404 then s
    else if status ≠ 200 then
      { s with singlePackages := s.singlePackages ++ [packageName]
               nRequestErrors := s.nRequestErrors + 1 }
    else
      match body.downloads with
      | some d => { s with counts := s.counts ++ [(packageName, d)] }
      | none => s

/-- One iteration of the worker loop of `startFetcherThread`: pop the last
pending bulk batch if there is one, otherwise the last pending single, and
hand it to the matching handler together with the API's answer. When both
queues are empty the loop has already terminated; we make the function total
by returning the state unchanged. -/
def fetchStep (s : FetchState) (e : ApiResp) : FetchState :=
  match s.unscopedPackageBatches.getLast? with
  | some batch =>
    fetchCountsForUnscopedBatch
      { s with unscopedPackageBatches := s.unscopedPackageBatches.dropLast } batch e
  | none =>
    match s.singlePackages.getLast? with
    | some p =>
      fetchCountForSinglePackage { s with singlePackages := s.singlePackages.dropLast } p e
    | none => s

/-- All identifiers currently accounted for by the fetch state: members of
pending bulk batches, pending singles, the permanent blocklist, and the keys
of the counts accumulated so far. -/
def allIds (s : FetchState) : List String :=
  s.unscopedPackageBatches.flatten ++ s.singlePackages ++ s.status403Packages ++
    s.counts.map Prod.fst

/-- The identifiers a step silently discards as legitimately absent: on the
single-package path a 404, or a 200 whose downloads field is null; on the bulk
path the entries of a 200 body whose downloads field is null. -/
def droppedBy (s : FetchState) (e : ApiResp) : List String :=
  match s.unscopedPackageBatches.getLast? with
  | some _ =>
    match e with
    | ApiResp.netErr => []
    | ApiResp.resp status body =>
      if status = 400 ∨ status = 403 then []
      else if status ≠ 200 then []
      else (body.entries.filter fun pe => pe.2.isNone).map Prod.fst
  | none =>
    match s.singlePackages.getLast? with
    | some p =>
      match e with
      | ApiResp.netErr => []
      | ApiResp.resp status body =>
        if status = 403 then []
        else if status = 404 then [p]
        else if status ≠ 200 then []
        else
          match body.downloads with
          | some _ => []
          | none => [p]
    | none => []

/-- The in-memory fetch state at the start of the fetch phase: the persisted
queues and blocklist, an empty `counts` object and a zeroed error counter. -/
def stateOfBuild (b : BuildState) : FetchState :=
  { unscopedPackageBatches := b.unscopedPackageBatches
    singlePackages := b.singlePackages
    status403Packages := b.status403Packages
    counts := []
    nRequestErrors := 0 }

/-- The singles queue produced from one bulk batch when the API rejects the
batch and every descendant batch with a request-shape status (400/403): a
batch of more than 3 names splits at `Math.trunc(length / 2)` into two halves
that are both rejected in turn; a batch of at most 3 names is demoted member
by member into the singles queue. -/
def rejectAll (batch : List String) : List String :=
  if _h : batch.length ≤ 3 then batch
  else
    rejectAll (batch.take (batch.length / 2)) ++ rejectAll (batch.drop (batch.length / 2))
termination_by batch.length
decreasing_by
  · simp only [List.length_take]
    omega
  · simp only [List.length_drop]
    omega

/-- Number of rounds of halving needed before every descendant of a rejected
batch has been demoted to the singles queue. -/
def splitDepth (batch : List String) : Nat :=
  if _h : batch.length ≤ 3 then 0
  else
    1 + max (splitDepth (batch.take (batch.length / 2)))
            (splitDepth (batch.drop (batch.length / 2)))
termination_by batch.length
decreasing_by
  · simp only [List.length_take]
    omega
  · simp only [List.length_drop]
    omega

/-- The wait loop of `throttledFetch` on the shared retry-after deadline:
`dl t` is the value of `retryAfterTimestampMs` at wall-clock time `t` (other
workers may raise it while this one sleeps). While the deadline is in the
future the worker sleeps until the deadline it last read, then re-checks; the
`fuel` argument bounds the number of re-checks so the function is total. -/
def nextStart (dl : Nat → Nat) : Nat → Nat → Option Nat
  | 0, _ => none
  | fuel + 1, t => if dl t ≤ t then some t else nextStart dl fuel (dl t)

/-- Start times of the successive physical requests of one worker through its
throttled fetcher. `call n` is the time the worker asks for request `n`; the
fetcher first awaits the timer armed `MIN_REQUEST_INTERVAL_MS` before the
previous request start, then runs the deadline wait loop, and the request
starts when that loop exits. -/
def requestStarts (dl : Nat → Nat) (call : Nat → Nat) (fuel : Nat) : Nat → Option Nat
  | 0 => nextStart dl fuel (call 0)
  | n + 1 =>
    match requestStarts dl call fuel n with
    | none => none
    | some s => nextStart dl fuel (max (call (n + 1)) (s + MIN_REQUEST_INTERVAL_MS))

/-- The update of `retryAfterTimestampMs` performed by `throttledFetch` on a
429 response at time `now`. `retryAfter` is the numeric value of the
Retry-After header (`none` when the header is missing or not a number); the
source tests `if (retryAfter)`, so a present-but-zero header also takes the
one-hour fallback branch. -/
def deadlineUpdate (cur now : Nat) (retryAfter : Option Nat) : Nat :=
  match retryAfter with
  | some ra =>
    if ra ≠ 0 then max cur (ra * 1000 + now)
    else max cur (RETRY_FALLBACK_MS + now)
  | none => max cur (RETRY_FALLBACK_MS + now)

/-- Modelled from the spec: the deadline update the specification describes,
`now + server-specified-delay` for a present Retry-After value and the
fallback only when the value is missing or invalid. Used to compare the
source's update rule against the spec's words. -/
def specDeadlineUpdate (cur now : Nat) (retryAfter : Option Nat) : Nat :=
  match retryAfter with
  | some ra => max cur (now + ra * 1000)
  | none => max cur (now + RETRY_FALLBACK_MS)

/-- The retry loop of `throttledFetch` around one logical call: each attempt
is a triple of the time the response arrives, its status code, and its parsed
Retry-After header. A 429 extends the shared deadline and retries; the first
non-429 response resolves the call. Returns the final deadline and the status
the caller sees (`none` when every listed attempt got a 429 and the loop is
still running). -/
def runThrottle : Nat → List (Nat × Nat × Option Nat) → Nat × Option Nat
  | dl, [] => (dl, none)
  | dl, (now, status, ra) :: rest =>
    if status = 429 then runThrottle (deadlineUpdate dl now ra) rest
    else (dl, some status)

/-- A JavaScript object holding download counts, abstracted by key lookup. -/
def Obj : Type := String → Option Nat

/-- `Object.assign(dst, src)` as it acts on lookups: keys of `src` win. -/
def objAssign (dst src : Obj) : Obj := fun k =>
  match src k with
  | some v => some v
  | none => dst k

/-- SCENARIO 3: read `counts0.json`, then `Object.assign` the shards
`counts1.json` .. `counts{countsFilesSoFar-1}.json` onto it in order.
`shardFile i` is the mapping stored in `counts{i}.json`. -/
def mergeCounts (shardFile : Nat → Obj) (countsFilesSoFar : Nat) : Obj :=
  (List.range' 1 (countsFilesSoFar - 1)).foldl
    (fun counts i => objAssign counts (shardFile i)) (shardFile 0)

/-- The value of key `k` in the highest-indexed shard below `n` containing it. -/
def lastShardValue (shardFile : Nat → Obj) (n : Nat) (k : String) : Option Nat :=
  (List.range n).reverse.findSome? fun i => shardFile i k

/-- The durable files an invocation of the fetch phase can touch: the
persisted `state.json` and the shard files `counts0.json` .. -/
structure Disk where
  buildState : BuildState
  shardFiles : List (List (String × Nat))
deriving DecidableEq

/-- Run the worker loop over a list of API answers without the abort check. -/
def runSteps (s : FetchState) (events : List ApiResp) : FetchState :=
  events.foldl fetchStep s

/-- Run the worker loop over a list of API answers with the abort check of
`recordUnexpectedError`: the process exits (result `none`) as soon as an
increment of `nRequestErrors` reaches `MAX_REQUEST_ERRORS`. -/
def runFetchLoop : FetchState → List ApiResp → Option FetchState
  | s, [] => some s
  | s, e :: rest =>
    let s' := fetchStep s e
    if s.nRequestErrors < s'.nRequestErrors ∧ MAX_REQUEST_ERRORS ≤ s'.nRequestErrors then none
    else runFetchLoop s' rest

/-- One full invocation of SCENARIO 2, from the disk's point of view: load the
state, run the workers over the given API answers, and - unless the error
ceiling aborted the process - write the shard file, write the updated state,
and exit 1 when a 429 was observed (`gotRateLimited`) and 0 otherwise.
Returns the resulting disk contents and the process exit code. -/
def runFetchInvocation (d : Disk) (events : List ApiResp) (gotRateLimited : Bool) :
    Disk × Nat :=
  match runFetchLoop (stateOfBuild d.buildState) events with
  | none => (d, 1)
  | some s =>
    ({ buildState :=
        { countsFilesSoFar := d.buildState.countsFilesSoFar + 1
          singlePackages := s.singlePackages
          unscopedPackageBatches := s.unscopedPackageBatches
          status403Packages := s.status403Packages
          published := d.buildState.published }
       shardFiles := d.shardFiles ++ [s.counts] },
     if gotRateLimited then 1 else 0)

/-! Helper lemmas shared by the claim theorems. -/

lemma map_fst_filterMap (l : List (String × Option Nat)) :
    (l.filterMap fun pe => pe.2.map fun d => (pe.1, d)).map Prod.fst
      = (l.filter fun pe => pe.2.isSome).map Prod.fst := by
  induction l with
  | nil => rfl
  | cons pe t ih => cases h : pe.2 <;> simp [List.filterMap_cons, List.filter_cons, h, ih]

lemma map_fst_split_perm (l : List (String × Option Nat)) :
    List.Perm
      ((l.filter fun pe => pe.2.isSome).map Prod.fst ++
        (l.filter fun pe => pe.2.isNone).map Prod.fst)
      (l.map Prod.fst) := by
  have h1 : (l.filter fun pe => pe.2.isNone) = l.filter fun pe => !pe.2.isSome := by
    apply List.filter_congr
    intro x _
    cases x.2 <;> rfl
  rw [h1, ← List.map_append]
  exact (List.filter_append_perm _ l).map Prod.fst

lemma buildBatchesGo_flatten (k : Nat) :
    ∀ (names : List String) (acc : List (List String)) (batch : List String),
      (buildBatchesGo k names acc batch).flatten = acc.flatten ++ batch ++ names := by
  intro names
  induction names with
  | nil =>
    intro acc batch
    simp only [buildBatchesGo]
    split_ifs with h
    · simp
    · simp only [ne_eq, not_not, List.length_eq_zero] at h
      simp [h]
  | cons p rest ih =>
    intro acc batch
    simp only [buildBatchesGo]
    split_ifs with h
    · rw [ih]
      simp
    · rw [ih]
      simp

lemma buildBatches_flatten (k : Nat) (names : List String) :
    (buildBatches k names).flatten = names := by
  simp [buildBatches, buildBatchesGo_flatten]

lemma initial_allIds (names : List String) :
    List.Perm (allIds (stateOfBuild (initialState names))) (names.filter goodName) := by
  unfold allIds stateOfBuild initialState
  dsimp only
  rw [buildBatches_flatten]
  simp only [List.append_nil, List.map_nil]
  exact List.perm_append_comm.trans (List.filter_append_perm _ _)

lemma status403_batch (s : FetchState) (batch : List String) (e : ApiResp) :
    (fetchCountsForUnscopedBatch s batch e).status403Packages = s.status403Packages := by
  cases e with
  | netErr => rfl
  | resp st bd =>
    simp only [fetchCountsForUnscopedBatch]
    split_ifs <;> rfl

lemma status403_single (s : FetchState) (p : String) (e : ApiResp) :
    ∃ t, (fetchCountForSinglePackage s p e).status403Packages = s.status403Packages ++ t := by
  cases e with
  | netErr => exact ⟨[], by simp [fetchCountForSinglePackage]⟩
  | resp st bd =>
    simp only [fetchCountForSinglePackage]
    split_ifs with h1 h2 h3
    · exact ⟨[p], rfl⟩
    · exact ⟨[], by simp⟩
    · exact ⟨[], by simp⟩
    · cases bd.downloads <;> exact ⟨[], by simp⟩

lemma status403_fetchStep (s : FetchState) (e : ApiResp) :
    ∃ t, (fetchStep s e).status403Packages = s.status403Packages ++ t := by
  unfold fetchStep
  cases hgl : s.unscopedPackageBatches.getLast? with
  | some b =>
    dsimp only
    rw [status403_batch]
    exact ⟨[], by simp⟩
  | none =>
    dsimp only
    cases hgs : s.singlePackages.getLast? with
    | some q =>
      dsimp only
      exact status403_single _ q e
    | none => exact ⟨[], by simp⟩

lemma fetch_step_preservation (s : FetchState) (e : ApiResp)
    (hbody : ∀ batch body, s.unscopedPackageBatches.getLast? = some batch →
      e = ApiResp.resp 200 body → body.entries.map Prod.fst = batch) :
    List.Perm (allIds (fetchStep s e) ++ droppedBy s e) (allIds s) := by
  obtain ⟨bs, S, B, K, n⟩ := s
  unfold fetchStep droppedBy
  dsimp only at hbody ⊢
  cases hgl : bs.getLast? with
  | some batch =>
    obtain ⟨ys, rfl⟩ := List.getLast?_eq_some_iff.1 hgl
    dsimp only
    rw [List.dropLast_concat]
    cases e with
    | netErr =>
      simp only [fetchCountsForUnscopedBatch]
      unfold allIds
      simp
    | resp st bd =>
      have hb200 : st = 200 → bd.entries.map Prod.fst = batch := fun h =>
        hbody batch bd hgl (by rw [h])
      simp only [fetchCountsForUnscopedBatch]
      split_ifs with h1 h2 h3
      · unfold allIds
        dsimp only
        rw [← Multiset.coe_eq_coe]
        simp only [List.flatten_append, List.flatten_cons, List.flatten_nil,
          List.append_nil, ← Multiset.coe_add]
        abel
      · unfold allIds
        dsimp only
        have ht : ((batch.take (batch.length / 2) : List String) : Multiset String) +
            ((batch.drop (batch.length / 2) : List String) : Multiset String) =
            (batch : Multiset String) := by
          rw [Multiset.coe_add, List.take_append_drop]
        rw [← Multiset.coe_eq_coe]
        simp only [List.flatten_append, List.flatten_cons, List.flatten_nil,
          List.append_nil, ← Multiset.coe_add]
        rw [← ht]
      · unfold allIds
        simp
      · unfold allIds
        dsimp only
        have hA : ((bd.entries.filter fun pe => pe.2.isSome).map Prod.fst : Multiset String) +
            ((bd.entries.filter fun pe => pe.2.isNone).map Prod.fst : Multiset String) =
            (batch : Multiset String) := by
          rw [Multiset.coe_add, Multiset.coe_eq_coe.2 (map_fst_split_perm bd.entries),
            hb200 (by omega)]
        rw [← Multiset.coe_eq_coe]
        simp only [List.flatten_append, List.flatten_cons, List.flatten_nil,
          List.append_nil, List.map_append, map_fst_filterMap, ← Multiset.coe_add]
        rw [← hA]
        abel
  | none =>
    dsimp only
    cases hgs : S.getLast? with
    | some p =>
      obtain ⟨zs, rfl⟩ := List.getLast?_eq_some_iff.1 hgs
      dsimp only
      rw [List.dropLast_concat]
      cases e with
      | netErr =>
        simp only [fetchCountForSinglePackage]
        unfold allIds
        simp
      | resp st bd =>
        simp only [fetchCountForSinglePackage]
        split_ifs with h1 h2 h3
        · unfold allIds
          dsimp only
          rw [← Multiset.coe_eq_coe]
          simp only [List.append_nil, ← Multiset.coe_add]
          abel
        · unfold allIds
          dsimp only
          rw [← Multiset.coe_eq_coe]
          simp only [← Multiset.coe_add]
          abel
        · unfold allIds
          dsimp only
          rw [← Multiset.coe_eq_coe]
          simp only [List.append_nil, ← Multiset.coe_add]
        · cases hd : bd.downloads with
          | some d =>
            unfold allIds
            dsimp only
            rw [← Multiset.coe_eq_coe]
            simp only [List.append_nil, List.map_append, ← Multiset.coe_add]
            abel
          | none =>
            unfold allIds
            dsimp only
            rw [← Multiset.coe_eq_coe]
            simp only [← Multiset.coe_add]
            abel
    | none =>
      dsimp only
      simp

/-! Claim theorems. -/

/-- C1: on every invocation exactly one of the five phases executes -
`dispatch` is a total function into `Phase` - and the phase is selected in
dispatch-priority order: no checkpoint yields initialise; else a set published
flag yields the no-op; else an existing artifact yields publish; else two
empty queues yield the shard merge; otherwise the fetch phase runs. -/
theorem dispatch_phases (e : Env) :
    (dispatch e = Phase.initialise ↔ e.stateFileExists = false) ∧
    (dispatch e = Phase.alreadyPublished ↔
      e.stateFileExists = true ∧ e.state.published = true) ∧
    (dispatch e = Phase.publishArtifact ↔
      e.stateFileExists = true ∧ e.state.published = false ∧ e.artifactExists = true) ∧
    (dispatch e = Phase.mergeShards ↔
      e.stateFileExists = true ∧ e.state.published = false ∧ e.artifactExists = false ∧
      e.state.singlePackages.length = 0 ∧ e.state.unscopedPackageBatches.length = 0) ∧
    (dispatch e = Phase.fetchCounts ↔
      e.stateFileExists = true ∧ e.state.published = false ∧ e.artifactExists = false ∧
      ¬(e.state.singlePackages.length = 0 ∧ e.state.unscopedPackageBatches.length = 0)) := by
  unfold dispatch
  split_ifs with h1 h2 h3 h4 <;> simp_all

/-- C2 (amended): after the init-time partition, the four pools (batch queue,
singles queue, blocklist, counted identifiers) together hold exactly the
filtered universe, and every worker step preserves the pooled identifiers up
to the explicitly listed legitimately-absent drops (`droppedBy`): a single
that 404s or whose downloads are null, and bulk entries with null downloads.
No step loses or duplicates any other identifier. -/
theorem identifier_partition_amended :
    (∀ names : List String,
      List.Perm (allIds (stateOfBuild (initialState names))) (names.filter goodName)) ∧
    (∀ (s : FetchState) (e : ApiResp),
      (∀ batch body, s.unscopedPackageBatches.getLast? = some batch →
        e = ApiResp.resp 200 body → body.entries.map Prod.fst = batch) →
      List.Perm (allIds (fetchStep s e) ++ droppedBy s e) (allIds s)) :=
  ⟨initial_allIds, fetch_step_preservation⟩

/-- C2 (witness): a concrete bulk 200 response with one null-download entry
preserves the pooled identifiers together with the dropped entry. -/
theorem identifier_partition_amended_witness :
    List.Perm
      (allIds (fetchStep ⟨[["x", "y"]], ["@s/z"], [], [], 0⟩
          (ApiResp.resp 200 ⟨[("x", some 3), ("y", none)], none⟩)) ++
        droppedBy ⟨[["x", "y"]], ["@s/z"], [], [], 0⟩
          (ApiResp.resp 200 ⟨[("x", some 3), ("y", none)], none⟩))
      (allIds ⟨[["x", "y"]], ["@s/z"], [], [], 0⟩) :=
  identifier_partition_amended.2 _ _ (by
    intro batch body h1 h2
    injection h2 with h2a h2b
    subst h2b
    simp only [List.getLast?_singleton, Option.some.injEq] at h1
    subst h1
    rfl)

/-- C2 (counterexample to the claim as stated): a scoped name from the
universe survives the init filter and sits in the singles queue, but after a
404 single-package response it is in none of the four pools - the exact
four-way partition of the claim does not hold for identifiers the code drops
as legitimately absent. -/
theorem identifier_partition_counterexample :
    "@scope/z" ∈ allIds (stateOfBuild (initialState ["@scope/z"])) ∧
    fetchStep (stateOfBuild (initialState ["@scope/z"])) (ApiResp.resp 404 ⟨[], none⟩) =
      ⟨[], [], [], [], 0⟩ ∧
    ¬ "@scope/z" ∈ allIds
      (fetchStep (stateOfBuild (initialState ["@scope/z"])) (ApiResp.resp 404 ⟨[], none⟩)) := by
  decide

/-- C3: a bulk batch rejected with a request-shape status (400 or 403) is
split into two halves re-queued on the batch queue when it has more than 3
members - the halves concatenate back to the original batch - and demoted
member by member into the singles queue when it has at most 3 members; in
both cases the unexpected-error counter is untouched. -/
theorem batch_shape_rejection_steps (s : FetchState) (batch : List String) (status : Nat)
    (body : JsonBody) (hst : status = 400 ∨ status = 403) :
    (3 < batch.length →
      fetchCountsForUnscopedBatch s batch (ApiResp.resp status body) =
        { s with unscopedPackageBatches := s.unscopedPackageBatches ++
            [batch.take (batch.length / 2), batch.drop (batch.length / 2)] } ∧
      batch.take (batch.length / 2) ++ batch.drop (batch.length / 2) = batch) ∧
    (batch.length ≤ 3 →
      fetchCountsForUnscopedBatch s batch (ApiResp.resp status body) =
        { s with singlePackages := s.singlePackages ++ batch }) ∧
    (fetchCountsForUnscopedBatch s batch (ApiResp.resp status body)).nRequestErrors
      = s.nRequestErrors := by
  refine ⟨fun h => ?_, fun h => ?_, ?_⟩
  · rw [fetchCountsForUnscopedBatch, if_pos hst, if_neg (by omega)]
    exact ⟨rfl, List.take_append_drop _ _⟩
  · rw [fetchCountsForUnscopedBatch, if_pos hst, if_pos h]
  · rw [fetchCountsForUnscopedBatch, if_pos hst]
    split <;> rfl

/-- C3 (witness): a 403-rejected batch of four names splits into two halves of
two, and a 400-rejected batch of two names is demoted onto the singles queue;
neither touches the error counter. -/
theorem batch_shape_rejection_steps_witness :
    fetchCountsForUnscopedBatch ⟨[], [], [], [], 0⟩ ["a", "b", "c", "d"]
      (ApiResp.resp 403 ⟨[], none⟩) = ⟨[["a", "b"], ["c", "d"]], [], [], [], 0⟩ ∧
    fetchCountsForUnscopedBatch ⟨[], ["p"], [], [], 0⟩ ["a", "b"]
      (ApiResp.resp 400 ⟨[], none⟩) = ⟨[], ["p", "a", "b"], [], [], 0⟩ := by
  constructor
  · rw [((batch_shape_rejection_steps ⟨[], [], [], [], 0⟩ ["a", "b", "c", "d"] 403 ⟨[], none⟩
      (Or.inr rfl)).1 (by decide)).1]
    decide
  · rw [(batch_shape_rejection_steps ⟨[], ["p"], [], [], 0⟩ ["a", "b"] 400 ⟨[], none⟩
      (Or.inl rfl)).2.1 (by decide)]
    decide

/-- C8: for a popped single identifier, a 404 drops it entirely (no result,
no blocklist entry, no requeue, no error count), a 403 appends it to
`status403Packages` - and no step ever removes anything from that blocklist,
so it is never retried - and any other non-success status re-queues it and
counts one unexpected error. -/
theorem single_package_handling (s : FetchState) (p : String) (body : JsonBody) (status : Nat)
    (hb : s.unscopedPackageBatches = []) (hp : s.singlePackages.getLast? = some p) :
    (fetchStep s (ApiResp.resp 404 body) =
      { s with singlePackages := s.singlePackages.dropLast }) ∧
    (fetchStep s (ApiResp.resp 403 body) =
      { s with singlePackages := s.singlePackages.dropLast
               status403Packages := s.status403Packages ++ [p] }) ∧
    (status ≠ 200 ∧ status ≠ 403 ∧ status ≠ 404 →
      fetchStep s (ApiResp.resp status body) =
        { s with singlePackages := s.singlePackages.dropLast ++ [p]
                 nRequestErrors := s.nRequestErrors + 1 }) ∧
    (∀ (s' : FetchState) (e : ApiResp), ∃ t,
      (fetchStep s' e).status403Packages = s'.status403Packages ++ t) := by
  refine ⟨?_, ?_, fun h => ?_, fun s' e => status403_fetchStep s' e⟩
  · unfold fetchStep
    rw [hb]
    simp only [List.getLast?_nil, hp]
    rw [fetchCountForSinglePackage, if_neg (by omega), if_pos rfl]
  · unfold fetchStep
    rw [hb]
    simp only [List.getLast?_nil, hp]
    rw [fetchCountForSinglePackage, if_pos rfl]
  · unfold fetchStep
    rw [hb]
    simp only [List.getLast?_nil, hp]
    rw [fetchCountForSinglePackage, if_neg (by omega), if_neg (by omega), if_pos (by omega)]

/-- C8 (witness): concrete 500, 403 and 404 responses for a queued scoped
package behave as the claim describes. -/
theorem single_package_handling_witness :
    fetchStep ⟨[], ["@a/b"], [], [], 0⟩ (ApiResp.resp 404 ⟨[], none⟩) = ⟨[], [], [], [], 0⟩ ∧
    fetchStep ⟨[], ["@a/b"], [], [], 0⟩ (ApiResp.resp 403 ⟨[], none⟩) =
      ⟨[], [], ["@a/b"], [], 0⟩ ∧
    fetchStep ⟨[], ["@a/b"], [], [], 0⟩ (ApiResp.resp 500 ⟨[], none⟩) =
      ⟨[], ["@a/b"], [], [], 1⟩ := by
  have h := single_package_handling ⟨[], ["@a/b"], [], [], 0⟩ "@a/b" ⟨[], none⟩ 500 rfl rfl
  refine ⟨?_, ?_, ?_⟩
  · rw [h.1]
    decide
  · rw [h.2.1]
    decide
  · rw [h.2.2.1 (by omega)]
    decide



lemma take_drop_shrink (batch : List String) (h : 3 < batch.length) :
    (batch.take (batch.length / 2)).length < batch.length ∧
    (batch.drop (batch.length / 2)).length < batch.length := by
  simp only [List.length_take, List.length_drop]
  omega

lemma splitDepth_le_clog (b : List String) : splitDepth b ≤ Nat.clog 2 b.length := by
  induction b using splitDepth.induct with
  | case1 b hb => rw [splitDepth, dif_pos hb]; omega
  | case2 b hb ih1 ih2 =>
    rw [splitDepth, dif_neg hb]
    have hclog : Nat.clog 2 b.length = Nat.clog 2 ((b.length + 2 - 1) / 2) + 1 := by
      rw [Nat.clog_of_two_le (by omega) (by omega)]
    have h1 : (b.take (b.length / 2)).length = b.length / 2 := by
      simp only [List.length_take]; omega
    have h2 : (b.drop (b.length / 2)).length = b.length - b.length / 2 := by
      simp only [List.length_drop]
    rw [h1] at ih1
    rw [h2] at ih2
    have m1 : Nat.clog 2 (b.length / 2) ≤ Nat.clog 2 ((b.length + 2 - 1) / 2) :=
      Nat.clog_mono_right 2 (by omega)
    have m2 : Nat.clog 2 (b.length - b.length / 2) ≤ Nat.clog 2 ((b.length + 2 - 1) / 2) :=
      Nat.clog_mono_right 2 (by omega)
    omega

lemma rejectAll_perm (b : List String) : List.Perm (rejectAll b) b := by
  induction b using rejectAll.induct with
  | case1 b hb => rw [rejectAll, dif_pos hb]
  | case2 b hb ih1 ih2 =>
    rw [rejectAll, dif_neg hb]
    exact (ih1.append ih2).trans (by rw [List.take_append_drop])

/-- C4: repeated request-shape rejection of a batch terminates - the halves
of a split are strictly shorter, the whole recursive process demotes exactly
the members of the batch to singles, and the split tree has depth at most
the base-2 ceiling logarithm of the batch size. -/
theorem batch_split_termination (batch : List String) :
    splitDepth batch ≤ Nat.clog 2 batch.length ∧
    List.Perm (rejectAll batch) batch ∧
    (3 < batch.length →
      (batch.take (batch.length / 2)).length < batch.length ∧
      (batch.drop (batch.length / 2)).length < batch.length) :=
  ⟨splitDepth_le_clog batch, rejectAll_perm batch, take_drop_shrink batch⟩

/-- C4 (witness): the size-4 batch splits once and its rejection process
demotes exactly its four members. -/
theorem batch_split_termination_witness :
    splitDepth ["a", "b", "c", "d"] ≤ Nat.clog 2 4 ∧
    List.Perm (rejectAll ["a", "b", "c", "d"]) ["a", "b", "c", "d"] ∧
    (["a", "b", "c", "d"].take 2).length < 4 := by
  have h := batch_split_termination ["a", "b", "c", "d"]
  exact ⟨h.1, h.2.1, (h.2.2 (by decide)).1⟩

lemma nextStart_spec (dl : Nat → Nat) :
    ∀ (fuel t u : Nat), nextStart dl fuel t = some u → t ≤ u ∧ dl u ≤ u := by
  intro fuel
  induction fuel with
  | zero =>
    intro t u h
    exact absurd h (by simp [nextStart])
  | succ f ih =>
    intro t u h
    rw [nextStart] at h
    split_ifs at h with hc
    · injection h with h
      subst h
      exact ⟨le_refl t, hc⟩
    · have hr := ih (dl t) u h
      exact ⟨le_trans (by omega) hr.1, hr.2⟩

lemma requestStarts_deadline (dl call : Nat → Nat) (fuel : Nat) :
    ∀ n s, requestStarts dl call fuel n = some s → dl s ≤ s := by
  intro n s h
  cases n with
  | zero =>
    rw [requestStarts] at h
    exact (nextStart_spec dl fuel _ s h).2
  | succ m =>
    rw [requestStarts] at h
    cases hm : requestStarts dl call fuel m with
    | none => rw [hm] at h; cases h
    | some sp =>
      rw [hm] at h
      exact (nextStart_spec dl fuel _ s h).2

/-- C5: consecutive request starts of one worker are at least
`MIN_REQUEST_INTERVAL_MS` apart, and every request starts at a time at which
the shared retry-after deadline - re-read after each sleep, so extensions by
other workers are honoured - is not in the future. -/
theorem rate_gate_spacing (dl call : Nat → Nat) (fuel n s s' : Nat)
    (h : requestStarts dl call fuel n = some s)
    (h' : requestStarts dl call fuel (n + 1) = some s') :
    s + MIN_REQUEST_INTERVAL_MS ≤ s' ∧ dl s ≤ s ∧ dl s' ≤ s' := by
  refine ⟨?_, requestStarts_deadline dl call fuel n s h,
    requestStarts_deadline dl call fuel (n + 1) s' h'⟩
  rw [requestStarts, h] at h'
  have hs := (nextStart_spec dl fuel _ s' h').1
  calc s + MIN_REQUEST_INTERVAL_MS ≤ max (call (n + 1)) (s + MIN_REQUEST_INTERVAL_MS) :=
        le_max_right _ _
    _ ≤ s' := hs

def witnessDeadline (t : Nat) : Nat := if t ≤ 600 then 700 else 0

/-- C5 (witness): with a deadline of 700 posted until time 600 and calls
requested at time 0, the first two requests start at 700 and 1200. -/
theorem rate_gate_spacing_witness :
    700 + MIN_REQUEST_INTERVAL_MS ≤ 1200 ∧ witnessDeadline 700 ≤ 700 ∧
      witnessDeadline 1200 ≤ 1200 :=
  rate_gate_spacing witnessDeadline (fun _ => 0) 5 0 700 1200 (by decide) (by decide)



lemma deadlineUpdate_ge (cur now : Nat) (ra : Option Nat) : cur ≤ deadlineUpdate cur now ra := by
  unfold deadlineUpdate
  cases ra with
  | none => exact le_max_left _ _
  | some d =>
    dsimp only
    split_ifs <;> exact le_max_left _ _

lemma runThrottle_deadline_mono (dl : Nat) (attempts : List (Nat × Nat × Option Nat)) :
    dl ≤ (runThrottle dl attempts).1 := by
  induction attempts generalizing dl with
  | nil => exact le_refl dl
  | cons a rest ih =>
    obtain ⟨now, status, ra⟩ := a
    rw [runThrottle]
    split_ifs with h
    · exact le_trans (deadlineUpdate_ge dl now ra) (ih _)
    · exact le_refl dl

lemma runThrottle_result (dl : Nat) (attempts : List (Nat × Nat × Option Nat)) :
    (runThrottle dl attempts).2 = (attempts.find? fun a => a.2.1 != 429).map fun a => a.2.1 := by
  induction attempts generalizing dl with
  | nil => rfl
  | cons a rest ih =>
    obtain ⟨now, status, ra⟩ := a
    rw [runThrottle]
    split_ifs with h
    · rw [ih]
      rw [List.find?_cons_of_neg _ (by simp [h])]
    · rw [List.find?_cons_of_pos _ (by simp [h])]
      rfl

/-- C6 (amended): on a 429 the shared deadline is raised to the max of its
current value and now plus the Retry-After delay; when the header is missing,
invalid, or zero (the source's truthiness test), the one-hour fallback is
used; the deadline never decreases across retries; the logical call resolves
to the first non-429 response, so the caller never sees a 429. -/
theorem rate_limit_gate_amended :
    (∀ (cur now : Nat) (ra : Option Nat),
      cur ≤ deadlineUpdate cur now ra ∧
      (∀ d, ra = some d → d ≠ 0 → deadlineUpdate cur now ra = max cur (d * 1000 + now)) ∧
      ((ra = none ∨ ra = some 0) → deadlineUpdate cur now ra = max cur (RETRY_FALLBACK_MS + now))) ∧
    (∀ (dl : Nat) (attempts : List (Nat × Nat × Option Nat)),
      dl ≤ (runThrottle dl attempts).1 ∧
      (runThrottle dl attempts).2 = (attempts.find? fun a => a.2.1 != 429).map fun a => a.2.1) ∧
    (∀ (dl : Nat) (attempts : List (Nat × Nat × Option Nat)) (st : Nat),
      (runThrottle dl attempts).2 = some st → st ≠ 429) := by
  refine ⟨fun cur now ra => ⟨deadlineUpdate_ge cur now ra, fun d hd hdz => ?_, fun hra => ?_⟩,
    fun dl attempts => ⟨runThrottle_deadline_mono dl attempts, runThrottle_result dl attempts⟩,
    fun dl attempts st hst => ?_⟩
  · subst hd
    rw [deadlineUpdate, if_pos hdz]
  · rcases hra with h | h <;> subst h
    · rfl
    · rw [deadlineUpdate, if_neg (by omega)]
  · rw [runThrottle_result] at hst
    cases hf : attempts.find? fun a => a.2.1 != 429 with
    | none => rw [hf] at hst; cases hst
    | some a =>
      rw [hf] at hst
      have hp := List.find?_some hf
      injection hst with hst
      subst hst
      simpa using hp

/-- C6 (witness): a present nonzero Retry-After raises the deadline to
`max cur (delay * 1000 + now)`, and a 429 followed by a 200 resolves to the
200 - never to the 429. -/
theorem rate_limit_gate_amended_witness :
    deadlineUpdate 10 7 (some 5) = max 10 (5 * 1000 + 7) ∧
    (runThrottle 3 [(1, 429, some 2), (9, 200, none)]).2 = some 200 ∧
    (200 : Nat) ≠ 429 := by
  refine ⟨(rate_limit_gate_amended.1 10 7 (some 5)).2.1 5 rfl (by decide), ?_, ?_⟩
  · rw [(rate_limit_gate_amended.2.1 3 [(1, 429, some 2), (9, 200, none)]).2]
    decide
  · exact rate_limit_gate_amended.2.2 3 [(1, 429, some 2), (9, 200, none)] 200 (by
      rw [(rate_limit_gate_amended.2.1 3 [(1, 429, some 2), (9, 200, none)]).2]
      decide)

/-- C6 (counterexample to the claim as stated): a 429 whose Retry-After header
is present and carries the valid value 0 takes the one-hour fallback rather
than `now + 0`; the source's update differs from the spec's description at
that input. -/
theorem rate_limit_gate_counterexample :
    deadlineUpdate 0 0 (some 0) = RETRY_FALLBACK_MS ∧
    specDeadlineUpdate 0 0 (some 0) = 0 ∧
    deadlineUpdate 0 0 (some 0) ≠ specDeadlineUpdate 0 0 (some 0) := by
  refine ⟨rfl, rfl, by decide⟩



lemma range'_one_concat (n : Nat) (hn : 1 ≤ n) :
    List.range' 1 n = List.range' 1 (n - 1) ++ [n] := by
  have h := List.range'_append_1 1 (n - 1) 1
  rw [show 1 + (n - 1) = n by omega] at h
  rw [← h, List.range'_one]

lemma mergeCounts_succ (shardFile : Nat → Obj) (n : Nat) (hn : 1 ≤ n) :
    mergeCounts shardFile (n + 1) = objAssign (mergeCounts shardFile n) (shardFile n) := by
  unfold mergeCounts
  rw [show n + 1 - 1 = n from rfl, range'_one_concat n hn, List.foldl_append]
  rfl

lemma mergeCounts_eq_lastShardValue (shardFile : Nat → Obj) (n : Nat) (hn : 1 ≤ n)
    (k : String) : mergeCounts shardFile n k = lastShardValue shardFile n k := by
  induction n with
  | zero => omega
  | succ m ih =>
    rcases Nat.eq_or_lt_of_le hn with h1 | h2
    · have hm : m = 0 := by omega
      subst hm
      show shardFile 0 k = lastShardValue shardFile 1 k
      unfold lastShardValue
      rw [show (List.range 1).reverse = [0] from rfl]
      cases hsf : shardFile 0 k <;> simp [List.findSome?_cons, hsf]
    · have hm : 1 ≤ m := by omega
      rw [mergeCounts_succ shardFile m hm]
      unfold lastShardValue objAssign
      rw [List.range_succ, List.reverse_append, List.reverse_singleton]
      simp only [List.singleton_append, List.findSome?_cons]
      cases hv : shardFile m k with
      | some v => simp [hv]
      | none =>
        simp only [hv]
        exact ih hm

/-- C7: for at least one shard, the merged artifact read at any key equals
the value of the highest-indexed shard containing that key, and any key
present in some shard is present in the artifact. -/
theorem shard_merge_correct (shardFile : Nat → Obj) (n : Nat) (hn : 1 ≤ n) (k : String) :
    mergeCounts shardFile n k = lastShardValue shardFile n k ∧
    (∀ i, i < n → (shardFile i k).isSome → (mergeCounts shardFile n k).isSome) := by
  refine ⟨mergeCounts_eq_lastShardValue shardFile n hn k, fun i hi hsome => ?_⟩
  rw [mergeCounts_eq_lastShardValue shardFile n hn k]
  unfold lastShardValue
  cases hf : (List.range n).reverse.findSome? fun j => shardFile j k with
  | some v => rfl
  | none =>
    rw [List.findSome?_eq_none_iff] at hf
    have : shardFile i k = none := hf i (by simp [List.mem_reverse, List.mem_range, hi])
    rw [this] at hsome
    cases hsome

def witnessShards : Nat → Obj := fun i =>
  if i = 0 then fun k => if k = "a" then some 1 else if k = "c" then some 7 else none
  else fun k => if k = "b" then some 2 else if k = "c" then some 9 else none

/-- C7 (witness): merging `{a:1, c:7}` and `{b:2, c:9}` yields `a = 1`,
`b = 2`, and the duplicate key `c` resolves to the highest-indexed shard. -/
theorem shard_merge_correct_witness :
    mergeCounts witnessShards 2 "c" = lastShardValue witnessShards 2 "c" ∧
    mergeCounts witnessShards 2 "a" = some 1 ∧
    mergeCounts witnessShards 2 "b" = some 2 ∧
    mergeCounts witnessShards 2 "c" = some 9 :=
  ⟨(shard_merge_correct witnessShards 2 (by decide) "c").1, rfl, rfl, rfl⟩



lemma fetchCountsForUnscopedBatch_err (s : FetchState) (batch : List String) (e : ApiResp) :
    s.nRequestErrors ≤ (fetchCountsForUnscopedBatch s batch e).nRequestErrors ∧
    (fetchCountsForUnscopedBatch s batch e).nRequestErrors ≤ s.nRequestErrors + 1 := by
  cases e with
  | netErr => exact ⟨by simp [fetchCountsForUnscopedBatch], by simp [fetchCountsForUnscopedBatch]⟩
  | resp st bd =>
    simp only [fetchCountsForUnscopedBatch]
    split_ifs <;> simp

lemma fetchCountForSinglePackage_err (s : FetchState) (p : String) (e : ApiResp) :
    s.nRequestErrors ≤ (fetchCountForSinglePackage s p e).nRequestErrors ∧
    (fetchCountForSinglePackage s p e).nRequestErrors ≤ s.nRequestErrors + 1 := by
  cases e with
  | netErr => exact ⟨by simp [fetchCountForSinglePackage], by simp [fetchCountForSinglePackage]⟩
  | resp st bd =>
    simp only [fetchCountForSinglePackage]
    split_ifs <;> first
      | simp
      | (cases bd.downloads <;> simp)

lemma fetchStep_err (s : FetchState) (e : ApiResp) :
    s.nRequestErrors ≤ (fetchStep s e).nRequestErrors ∧
    (fetchStep s e).nRequestErrors ≤ s.nRequestErrors + 1 := by
  unfold fetchStep
  cases hgl : s.unscopedPackageBatches.getLast? with
  | some b =>
    dsimp only
    exact fetchCountsForUnscopedBatch_err
      { s with unscopedPackageBatches := s.unscopedPackageBatches.dropLast } b e
  | none =>
    dsimp only
    cases hgs : s.singlePackages.getLast? with
    | some q =>
      dsimp only
      exact fetchCountForSinglePackage_err
        { s with singlePackages := s.singlePackages.dropLast } q e
    | none => simp

lemma runFetchLoop_none_iff (es : List ApiResp) :
    ∀ s : FetchState, s.nRequestErrors < MAX_REQUEST_ERRORS →
      (runFetchLoop s es = none ↔
        ∃ k, MAX_REQUEST_ERRORS ≤ (runSteps s (es.take k)).nRequestErrors) := by
  induction es with
  | nil =>
    intro s hs
    simp only [runFetchLoop, runSteps, List.take_nil, List.foldl_nil]
    constructor
    · intro h
      exact absurd h (by simp)
    · rintro ⟨k, hk⟩
      exact absurd hk (by omega)
  | cons e rest ih =>
    intro s hs
    rw [runFetchLoop]
    by_cases habort : s.nRequestErrors < (fetchStep s e).nRequestErrors ∧
        MAX_REQUEST_ERRORS ≤ (fetchStep s e).nRequestErrors
    · rw [if_pos habort]
      constructor
      · intro _
        refine ⟨1, ?_⟩
        simpa [runSteps] using habort.2
      · intro _
        rfl
    · rw [if_neg habort]
      have hm := fetchStep_err s e
      have hlt : (fetchStep s e).nRequestErrors < MAX_REQUEST_ERRORS := by
        by_cases hinc : s.nRequestErrors < (fetchStep s e).nRequestErrors
        · by_contra hge
          exact habort ⟨hinc, by omega⟩
        · omega
      rw [ih _ hlt]
      constructor
      · rintro ⟨k, hk⟩
        refine ⟨k + 1, ?_⟩
        simpa [runSteps] using hk
      · rintro ⟨k, hk⟩
        cases k with
        | zero =>
          refine absurd hk ?_
          simp only [List.take_zero, runSteps, List.foldl_nil]
          omega
        | succ m =>
          refine ⟨m, ?_⟩
          simpa [runSteps] using hk

/-- C9 (amended): a fetch invocation exits with status 1 exactly when the
unexpected-error ceiling is reached mid-run (the abort inside
`recordUnexpectedError`) or when the run completes after having observed any
429 (`gotRateLimited`); it exits 0 exactly otherwise. -/
theorem exit_code_amended (d : Disk) (es : List ApiResp) (rl : Bool) :
    ((runFetchInvocation d es rl).2 = 1 ↔
      (∃ k, MAX_REQUEST_ERRORS ≤
        (runSteps (stateOfBuild d.buildState) (es.take k)).nRequestErrors) ∨ rl = true) ∧
    ((runFetchInvocation d es rl).2 = 0 ↔
      ¬((∃ k, MAX_REQUEST_ERRORS ≤
        (runSteps (stateOfBuild d.buildState) (es.take k)).nRequestErrors) ∨ rl = true)) := by
  have hiff := runFetchLoop_none_iff es (stateOfBuild d.buildState) (by
    show (0 : Nat) < MAX_REQUEST_ERRORS
    decide)
  unfold runFetchInvocation
  cases hrl : runFetchLoop (stateOfBuild d.buildState) es with
  | none =>
    have hk := hiff.1 hrl
    simp [hk]
  | some s =>
    have hno : ¬∃ k, MAX_REQUEST_ERRORS ≤
        (runSteps (stateOfBuild d.buildState) (es.take k)).nRequestErrors := by
      intro hk
      rw [hiff.2 hk] at hrl
      cases hrl
    dsimp only
    cases rl <;> simp [hno]

/-- C9 (counterexample to the claim as stated): an invocation that completes
its fetch phase normally - the loop returns a final state and the shard is
written - still exits with the failure status 1 when a 429 was observed, so
failure exits are not reserved to the error-ceiling case. -/
theorem exit_code_counterexample :
    (runFetchInvocation ⟨⟨0, ["@a/b"], [], [], false⟩, []⟩
      [ApiResp.resp 200 ⟨[], some 5⟩] true).2 = 1 ∧
    (runFetchLoop (stateOfBuild ⟨0, ["@a/b"], [], [], false⟩)
      [ApiResp.resp 200 ⟨[], some 5⟩]).isSome = true ∧
    (runSteps (stateOfBuild ⟨0, ["@a/b"], [], [], false⟩)
      [ApiResp.resp 200 ⟨[], some 5⟩]).nRequestErrors = 0 ∧
    (runFetchInvocation ⟨⟨0, ["@a/b"], [], [], false⟩, []⟩
      [ApiResp.resp 200 ⟨[], some 5⟩] true).1.shardFiles = [[("@a/b", 5)]] := by
  decide

/-- C10: when the unexpected-error ceiling is reached at some point of the
fetch phase, the invocation exits 1 with the disk untouched: no shard file is
appended and the persisted state (queues, blocklist, shard counter) is
exactly what it was at invocation start, discarding all in-memory counts. -/
theorem ceiling_abort_keeps_disk (d : Disk) (es : List ApiResp) (rl : Bool)
    (h : ∃ k, MAX_REQUEST_ERRORS ≤
      (runSteps (stateOfBuild d.buildState) (es.take k)).nRequestErrors) :
    runFetchInvocation d es rl = (d, 1) ∧
    (runFetchInvocation d es rl).1.shardFiles = d.shardFiles ∧
    (runFetchInvocation d es rl).1.buildState = d.buildState := by
  have hiff := runFetchLoop_none_iff es (stateOfBuild d.buildState) (by
    show (0 : Nat) < MAX_REQUEST_ERRORS
    decide)
  have hnone := hiff.2 h
  unfold runFetchInvocation
  rw [hnone]
  exact ⟨rfl, rfl, rfl⟩

/-- C10 (witness): eighty straight network errors on a one-package queue hit
the ceiling; the invocation returns the disk unchanged with exit status 1. -/
theorem ceiling_abort_keeps_disk_witness :
    runFetchInvocation ⟨⟨3, ["x"], [], ["b"], false⟩, [[("y", 2)]]⟩
      (List.replicate 80 ApiResp.netErr) false =
      (⟨⟨3, ["x"], [], ["b"], false⟩, [[("y", 2)]]⟩, 1) :=
  (ceiling_abort_keeps_disk ⟨⟨3, ["x"], [], ["b"], false⟩, [[("y", 2)]]⟩
    (List.replicate 80 ApiResp.netErr) false ⟨80, by set_option maxRecDepth 4000 in decide⟩).1


/-- C1 (witness): a concrete environment with a checkpoint, an unpublished
state, no artifact and empty queues dispatches to the merge phase. -/
theorem dispatch_phases_witness :
    dispatch ⟨true, ⟨0, [], [], [], false⟩, false⟩ = Phase.mergeShards :=
  ((dispatch_phases ⟨true, ⟨0, [], [], [], false⟩, false⟩).2.2.2.1).mpr
    ⟨rfl, rfl, rfl, rfl, rfl⟩

/-- C9 (witness): an empty fetch run with no rate limiting exits 0. -/
theorem exit_code_amended_witness :
    (runFetchInvocation ⟨⟨0, ["x"], [], [], false⟩, []⟩ [] false).2 = 0 :=
  (exit_code_amended ⟨⟨0, ["x"], [], [], false⟩, []⟩ [] false).2.mpr (by
    rintro (⟨k, hk⟩ | hrl)
    · simp only [List.take_nil, runSteps, List.foldl_nil] at hk
      exact absurd hk (by decide)
    · cases hrl)

end DownloadCounts
